import Mathlib

/-!
Shallow embedding of the DLCF library bot (src/index.js) and proofs of the
frozen claims about it.  The embedding follows the source file: pure string
helpers become Lean functions on `String`/`List Char`, the mutable in-memory
state (books, rate-limiter map, pending intake sessions, request ledger)
becomes an explicit `BotState` record, and the single message handler becomes
a pure transition function `handleMessage` parameterised by an `Env` record
that carries the outcomes of the external collaborators (clock, sheet fetch,
sheet append, per-admin notification delivery, document delivery).
-/

namespace LibBot

/-! ### String helpers (src/index.js lines 42-52) -/

/-- ASCII control characters removed by `safeText` in the source:
the regex class U+0000-U+001F together with U+007F. -/
def isJsControl (c : Char) : Bool :=
  decide (c.toNat < 0x20) || decide (c.toNat = 0x7F)

/-- Characters treated as whitespace by the JavaScript `String.trim`:
the WhiteSpace and LineTerminator code points of the ECMAScript standard. -/
def isJsSpace (c : Char) : Bool :=
  decide (c = ' ') || decide (c = '\t') || decide (c = '\n') ||
  decide (c.toNat = 0x0B) || decide (c.toNat = 0x0C) || decide (c = '\r') ||
  decide (c.toNat = 0xA0) || decide (c.toNat = 0x1680) ||
  (decide (0x2000 ≤ c.toNat) && decide (c.toNat ≤ 0x200A)) ||
  decide (c.toNat = 0x2028) || decide (c.toNat = 0x2029) ||
  decide (c.toNat = 0x202F) || decide (c.toNat = 0x205F) ||
  decide (c.toNat = 0x3000) || decide (c.toNat = 0xFEFF)

/-- Remove leading and trailing JS whitespace from a character list. -/
def jsTrimList (l : List Char) : List Char :=
  ((l.dropWhile isJsSpace).reverse.dropWhile isJsSpace).reverse

/-- Model of the JavaScript `String.prototype.trim`. -/
def jsTrim (s : String) : String :=
  String.mk (jsTrimList s.data)

/-- `safeText` (src/index.js lines 42-46): remove ASCII control characters,
then trim surrounding whitespace. -/
def safeText (s : String) : String :=
  String.mk (jsTrimList (s.data.filter (fun c => !isJsControl c)))

/-- `safeFileId` (src/index.js lines 49-52): only trim surrounding whitespace,
never remove interior characters. -/
def safeFileId (s : String) : String :=
  String.mk (jsTrimList s.data)

/-! ### Data model -/

/-- One catalog entry, as stored in the in-memory `books` array
(src/index.js line 149). -/
structure BookRecord where
  id : String
  title : String
  author : String
  file_id : String
deriving DecidableEq, Repr

/-- A pending intake session, the value stored in `waitingForMeta[chatId]`
(src/index.js line 819). -/
structure Session where
  file_id : String
  mimeType : String
deriving DecidableEq, Repr

/-- A request-ledger entry, as pushed onto `db.requests`
(src/index.js lines 856-862). -/
structure RequestRecord where
  rid : String
  userId : String
  userName : String
  query : String
  createdAt : Int
deriving DecidableEq, Repr

/-! ### Sheet loading (src/index.js lines 192-224) -/

/-- The body of the `loadSheet` row loop (src/index.js lines 202-210) for a
single raw row: sanitize the four cells and keep the row exactly when title
and file id are non-empty. -/
def rowToBook (r : List String) : Option BookRecord :=
  let id := safeText (r.getD 0 "")
  let title := safeText (r.getD 1 "")
  let author := safeText (r.getD 2 "")
  let file_id := safeFileId (r.getD 3 "")
  if title ≠ "" ∧ file_id ≠ "" then some ⟨id, title, author, file_id⟩ else none

/-- The `loadSheet` row loop itself: walk the rows in order, pushing the
surviving records onto the accumulator (models `parsed.push`). -/
def parseRowsLoop : List (List String) → List BookRecord → List BookRecord
  | [], acc => acc
  | r :: rest, acc =>
    let id := safeText (r.getD 0 "")
    let title := safeText (r.getD 1 "")
    let author := safeText (r.getD 2 "")
    let file_id := safeFileId (r.getD 3 "")
    if title ≠ "" ∧ file_id ≠ "" then
      parseRowsLoop rest (acc ++ [⟨id, title, author, file_id⟩])
    else
      parseRowsLoop rest acc

/-- Parsing phase of `loadSheet`: the loop starts at row index 1, skipping
the header row (src/index.js line 201). -/
def parseSheetRows (rows : List (List String)) : List BookRecord :=
  parseRowsLoop (rows.drop 1) []

/-! ### Claim C1 -/

theorem parseRowsLoop_eq (rows : List (List String)) :
    ∀ acc, parseRowsLoop rows acc = acc ++ rows.filterMap rowToBook := by
  induction rows with
  | nil => intro acc; simp [parseRowsLoop]
  | cons r rest ih =>
    intro acc
    simp only [parseRowsLoop, rowToBook, List.filterMap_cons]
    split
    · rw [ih]; simp
    · rw [ih]

theorem rowToBook_fields {r : List String} {b : BookRecord} (h : rowToBook r = some b) :
    b.title ≠ "" ∧ b.file_id ≠ "" := by
  simp only [rowToBook] at h
  split at h
  next hc => cases h; exact ⟨by simpa using hc.1, by simpa using hc.2⟩
  next => cases h

/-- C1: loading skips the header row and produces, for each subsequent row in
order, a record exactly when the sanitized title and file id are non-empty;
id, title and author go through `safeText` (control characters stripped and
trimmed) while the file id goes through `safeFileId` (trim only), so the file
id that survives is a contiguous interior slice of the raw cell. -/
theorem claim_C1 :
    (∀ rows : List (List String),
        parseSheetRows rows = (rows.drop 1).filterMap rowToBook) ∧
    (∀ (b : BookRecord) (rows : List (List String)),
        b ∈ parseSheetRows rows → b.title ≠ "" ∧ b.file_id ≠ "") ∧
    (∀ s : String, ∃ pre suf : List Char,
        s.data = pre ++ (safeFileId s).data ++ suf) := by
  refine ⟨fun rows => by rw [parseSheetRows, parseRowsLoop_eq]; simp, ?_, ?_⟩
  · intro b rows hb
    rw [show parseSheetRows rows = (rows.drop 1).filterMap rowToBook by
      rw [parseSheetRows, parseRowsLoop_eq]; simp] at hb
    obtain ⟨r, _, hr⟩ := List.mem_filterMap.mp hb
    exact rowToBook_fields hr
  · intro s
    have hdrop : ∀ (p : Char → Bool) (l : List Char), ∃ pre, l = pre ++ l.dropWhile p := by
      intro p l
      induction l with
      | nil => exact ⟨[], rfl⟩
      | cons x xs ih =>
        by_cases hx : p x
        · obtain ⟨pre, hpre⟩ := ih
          exact ⟨x :: pre, by simp [List.dropWhile, hx, ← hpre]⟩
        · exact ⟨[], by simp [List.dropWhile, hx]⟩
    obtain ⟨pre, hpre⟩ := hdrop isJsSpace s.data
    obtain ⟨pre2, hpre2⟩ := hdrop isJsSpace (s.data.dropWhile isJsSpace).reverse
    refine ⟨pre, pre2.reverse, ?_⟩
    have : s.data.dropWhile isJsSpace =
        ((s.data.dropWhile isJsSpace).reverse.dropWhile isJsSpace).reverse ++ pre2.reverse := by
      conv_lhs => rw [← (s.data.dropWhile isJsSpace).reverse_reverse, hpre2]
      simp
    rw [safeFileId, jsTrimList]
    calc s.data = pre ++ s.data.dropWhile isJsSpace := hpre
    _ = pre ++ (((s.data.dropWhile isJsSpace).reverse.dropWhile isJsSpace).reverse ++ pre2.reverse) := by rw [← this]
    _ = pre ++ ((String.mk (((s.data.dropWhile isJsSpace).reverse.dropWhile isJsSpace).reverse)).data ++ pre2.reverse) := rfl
    _ = _ := by simp

/-- Concrete witness for C1: a two-row sheet (header plus one data row with
padding around the file id). -/
theorem claim_C1_witness :
    parseSheetRows [["id", "title", "author", "file_id"], ["1", " Bk ", "An", "  f1 "]] =
      ([["id", "title", "author", "file_id"], ["1", " Bk ", "An", "  f1 "]].drop 1).filterMap rowToBook ∧
    ((⟨"1", "Bk", "An", "f1"⟩ : BookRecord).title ≠ "" ∧
      (⟨"1", "Bk", "An", "f1"⟩ : BookRecord).file_id ≠ "") ∧
    (∃ pre suf : List Char, ("  f1 " : String).data = pre ++ (safeFileId "  f1 ").data ++ suf) :=
  ⟨claim_C1.1 [["id", "title", "author", "file_id"], ["1", " Bk ", "An", "  f1 "]],
   claim_C1.2.1 ⟨"1", "Bk", "An", "f1"⟩
     [["id", "title", "author", "file_id"], ["1", " Bk ", "An", "  f1 "]] (by decide),
   claim_C1.2.2 "  f1 "⟩

/-! ### Association maps

JavaScript `Map` objects and plain objects used as dictionaries
(`lastRequestAt`, `waitingForMeta`) are modelled as association lists whose
update operations keep at most one entry per key, matching the semantics of
`map.set`, `obj[k] = v` and `delete obj[k]`. -/

def alookup {K V : Type} [BEq K] (k : K) (m : List (K × V)) : Option V :=
  (m.find? (fun p => p.1 == k)).map (fun p => p.2)

def aset {K V : Type} [BEq K] (k : K) (v : V) (m : List (K × V)) : List (K × V) :=
  (k, v) :: m.filter (fun p => !(p.1 == k))

def adel {K V : Type} [BEq K] (k : K) (m : List (K × V)) : List (K × V) :=
  m.filter (fun p => !(p.1 == k))

def countKeys {K V : Type} [BEq K] (k : K) (m : List (K × V)) : Nat :=
  m.countP (fun p => p.1 == k)

theorem find_filter {α : Type} {p q : α → Bool} (h : ∀ x, p x = true → q x = true) :
    ∀ l : List α, (l.filter q).find? p = l.find? p := by
  intro l
  induction l with
  | nil => rfl
  | cons x xs ih =>
    by_cases hq : q x = true
    · by_cases hp : p x = true <;> simp [List.filter_cons, List.find?, hq, hp, ih]
    · have hp : p x = false := by
        cases hpx : p x
        · rfl
        · exact absurd (h x hpx) hq
      simp [List.filter_cons, List.find?, hq, hp, ih]

theorem alookup_aset_self {K V : Type} [BEq K] [LawfulBEq K] (k : K) (v : V)
    (m : List (K × V)) : alookup k (aset k v m) = some v := by
  simp [alookup, aset, List.find?]

theorem alookup_aset_ne {K V : Type} [BEq K] [LawfulBEq K] {k k' : K} (v : V)
    (m : List (K × V)) (h : k' ≠ k) : alookup k (aset k' v m) = alookup k m := by
  have hbeq : (k' == k) = false := by simpa using h
  simp only [alookup, aset, List.find?, hbeq]
  rw [find_filter]
  intro x hx
  have hxk : x.1 = k := by simpa using hx
  simp only [hxk]
  simpa using fun hh => h hh.symm

theorem alookup_adel_self {K V : Type} [BEq K] [LawfulBEq K] (k : K)
    (m : List (K × V)) : alookup k (adel k m) = none := by
  have hfind : (m.filter (fun p => !(p.1 == k))).find? (fun p => p.1 == k) = none := by
    rw [List.find?_eq_none]
    intro x hx
    simpa using (List.mem_filter.mp hx).2
  simp [alookup, adel, hfind]

theorem countP_filter_le {α : Type} (p q : α → Bool) (l : List α) :
    (l.filter q).countP p ≤ l.countP p := by
  induction l with
  | nil => simp
  | cons x xs ih =>
    by_cases hq : q x = true <;> by_cases hp : p x = true <;>
      simp [List.filter_cons, List.countP_cons, hq, hp] <;> omega

theorem countKeys_aset_self {K V : Type} [BEq K] [LawfulBEq K] (k : K) (v : V)
    (m : List (K × V)) : countKeys k (aset k v m) = 1 := by
  simp only [countKeys, aset, List.countP_cons]
  have : (m.filter (fun p => !(p.1 == k))).countP (fun p => p.1 == k) = 0 := by
    rw [List.countP_eq_zero]
    intro x hx
    have := (List.mem_filter.mp hx).2
    simpa using this
  simp [this]

theorem countKeys_aset_le {K V : Type} [BEq K] [LawfulBEq K] (k k' : K) (v : V)
    (m : List (K × V)) (h : countKeys k m ≤ 1) : countKeys k (aset k' v m) ≤ 1 := by
  by_cases he : k' = k
  · subst he; rw [countKeys_aset_self]
  · have hbeq : (k' == k) = false := by simpa using he
    simp only [countKeys, aset, List.countP_cons, hbeq, Bool.false_eq_true, if_false]
    have := countP_filter_le (fun p : K × V => p.1 == k) (fun p => !(p.1 == k')) m
    simp only [countKeys] at h
    omega

theorem countKeys_adel_le {K V : Type} [BEq K] (k k' : K)
    (m : List (K × V)) (h : countKeys k m ≤ 1) : countKeys k (adel k' m) ≤ 1 := by
  have := countP_filter_le (fun p : K × V => p.1 == k) (fun p => !(p.1 == k')) m
  simp only [countKeys, adel] at *
  omega

/-! ### Rate limiter (src/index.js lines 283-291) -/

/-- `RATE_WINDOW_MS` (src/index.js line 283): one request per second. -/
def RATE_WINDOW_MS : Int := 1000

/-- `rateLimit` (src/index.js lines 285-291).  The mutable `lastRequestAt`
map and the clock are explicit: the function returns the admission verdict
together with the updated map.  A missing entry defaults to 0, modelling
`lastRequestAt.get(userId) || 0`. -/
def rateLimit (now : Int) (m : List (String × Int)) (userId : String) :
    Bool × List (String × Int) :=
  let last := (alookup userId m).getD 0
  if now - last < RATE_WINDOW_MS then (false, m) else (true, aset userId now m)

/-- Run a sequence of `(userId, timestamp)` calls through `rateLimit`,
threading the map, and collect the verdicts in order. -/
def rlRun : List (String × Int) → List (String × Int) → List Bool
  | _, [] => []
  | m, (u, t) :: rest =>
    let r := rateLimit t m u
    r.1 :: rlRun r.2 rest

theorem rateLimit_reject {now : Int} {m : List (String × Int)} {u : String}
    (h : now - (alookup u m).getD 0 < RATE_WINDOW_MS) :
    rateLimit now m u = (false, m) := by
  simp [rateLimit, h]

theorem rateLimit_accept {now : Int} {m : List (String × Int)} {u : String}
    (h : ¬ now - (alookup u m).getD 0 < RATE_WINDOW_MS) :
    rateLimit now m u = (true, aset u now m) := by
  simp [rateLimit, h]

theorem rateLimit_fst_true {now : Int} {m : List (String × Int)} {u : String}
    (h : (rateLimit now m u).1 = true) :
    (alookup u m).getD 0 + RATE_WINDOW_MS ≤ now ∧
      (rateLimit now m u).2 = aset u now m := by
  by_cases hc : now - (alookup u m).getD 0 < RATE_WINDOW_MS
  · rw [rateLimit_reject hc] at h; cases h
  · exact ⟨by omega, by rw [rateLimit_accept hc]⟩

/-- Any verdict `true` at position `j` comes at least one window after the
last-seen time recorded for that user in the starting map. -/
theorem rlRun_accept_ge (u : String) :
    ∀ (events m : List (String × Int)) (j : Nat) (tj : Int),
      events[j]? = some (u, tj) → (rlRun m events)[j]? = some true →
      (alookup u m).getD 0 + RATE_WINDOW_MS ≤ tj := by
  intro events
  induction events with
  | nil => intro m j tj hev; simp at hev
  | cons e rest ih =>
    intro m j tj hev hres
    obtain ⟨v, s⟩ := e
    match j with
    | 0 =>
      simp only [rlRun] at hres
      simp only [List.getElem?_cons_zero, Option.some_inj] at hev hres
      obtain ⟨hv, hs⟩ := Prod.mk.inj hev
      have := (rateLimit_fst_true hres).1
      subst hv; omega
    | Nat.succ k =>
      simp only [rlRun] at hres
      simp only [List.getElem?_cons_succ] at hev hres
      have ihk := ih (rateLimit s m v).2 k tj hev hres
      by_cases hc : s - (alookup v m).getD 0 < RATE_WINDOW_MS
      · rw [rateLimit_reject hc] at ihk
        exact ihk
      · rw [rateLimit_accept hc] at ihk
        by_cases huv : v = u
        · subst huv
          rw [alookup_aset_self] at ihk
          simp only [Option.getD_some] at ihk
          have : (alookup v m).getD 0 + RATE_WINDOW_MS ≤ s := by omega
          have hW : (0 : Int) < RATE_WINDOW_MS := by decide
          omega
        · rw [alookup_aset_ne _ _ huv] at ihk
          exact ihk

/-- C6: per-call behavior of `rateLimit` (reject without updating the map
when the elapsed time is under the window, accept and record the time
otherwise), and the trace-level guarantee that any two admitted calls of the
same user are at least `RATE_WINDOW_MS` apart. -/
theorem claim_C6 :
    (∀ (now : Int) (m : List (String × Int)) (u : String),
        now - (alookup u m).getD 0 < RATE_WINDOW_MS →
          rateLimit now m u = (false, m)) ∧
    (∀ (now : Int) (m : List (String × Int)) (u : String),
        ¬ now - (alookup u m).getD 0 < RATE_WINDOW_MS →
          rateLimit now m u = (true, aset u now m)) ∧
    (∀ (events m : List (String × Int)) (i j : Nat) (u : String) (ti tj : Int),
        i < j → events[i]? = some (u, ti) → events[j]? = some (u, tj) →
        (rlRun m events)[i]? = some true → (rlRun m events)[j]? = some true →
        ti + RATE_WINDOW_MS ≤ tj) := by
  refine ⟨fun _ _ _ h => rateLimit_reject h, fun _ _ _ h => rateLimit_accept h, ?_⟩
  intro events
  induction events with
  | nil => intro m i j u ti tj _ hev; simp at hev
  | cons e rest ih =>
    intro m i j u ti tj hij hevi hevj hresi hresj
    obtain ⟨v, s⟩ := e
    match i, j with
    | 0, Nat.succ k =>
      simp only [rlRun] at hresi hresj
      simp only [List.getElem?_cons_zero, Option.some_inj] at hevi hresi
      simp only [List.getElem?_cons_succ] at hevj hresj
      obtain ⟨hv, hs⟩ := Prod.mk.inj hevi
      have hacc := rateLimit_fst_true hresi
      have := rlRun_accept_ge u rest (rateLimit s m v).2 k tj hevj hresj
      rw [hacc.2] at this
      subst hv
      rw [alookup_aset_self] at this
      simp only [Option.getD_some] at this
      omega
    | Nat.succ l, Nat.succ k =>
      simp only [rlRun] at hresi hresj
      simp only [List.getElem?_cons_succ] at hevi hevj hresi hresj
      exact ih (rateLimit s m v).2 l k u ti tj (by omega) hevi hevj hresi hresj

/-- Concrete witness for C6: a three-call trace where the calls at t=1000 and
t=2500 are admitted and the one at t=1500 is rejected. -/
theorem claim_C6_witness :
    rateLimit 500 [] "u" = (false, []) ∧
    rateLimit 1000 [] "u" = (true, aset "u" 1000 []) ∧
    (1000 : Int) + RATE_WINDOW_MS ≤ 2500 :=
  ⟨claim_C6.1 500 [] "u" (by decide),
   claim_C6.2.1 1000 [] "u" (by decide),
   claim_C6.2.2 [("u", 1000), ("u", 1500), ("u", 2500)] [] 0 2 "u" 1000 2500
     (by decide) (by decide) (by decide) (by decide) (by decide)⟩

/-! ### Matcher

The search in src/index.js line 150/213 is delegated to the external Fuse.js
library, configured with keys title/author/id, threshold 0.35 and
includeScore.  The library code is not part of this repository, so the
matcher is modelled from the specification. -/

/-- Modelled from the spec: fuel-indexed Levenshtein edit distance between
two character lists, the standard recurrence; the spec calls the matcher
edit-distance based.  The fuel argument only makes the recursion structural;
with fuel at least the combined length it never runs out. -/
def levFuel : Nat → List Char → List Char → Nat
  | _, [], ys => ys.length
  | _, xs, [] => xs.length
  | 0, xs, ys => xs.length + ys.length
  | f + 1, x :: xs, y :: ys =>
    if x = y then levFuel f xs ys
    else 1 + min (levFuel f xs ys) (min (levFuel f (x :: xs) ys) (levFuel f xs (y :: ys)))

/-- Modelled from the spec: Levenshtein distance with sufficient fuel. -/
def lev (a b : List Char) : Nat := levFuel (a.length + b.length) a b

theorem levFuel_self : ∀ (l : List Char) (f : Nat), l.length ≤ f → levFuel f l l = 0 := by
  intro l
  induction l with
  | nil => intro f _; simp [levFuel]
  | cons x xs ih =>
    intro f hf
    match f with
    | 0 => exact absurd hf (by simp)
    | Nat.succ g =>
      have hg : xs.length ≤ g := by
        have := hf
        simp only [List.length_cons] at this
        omega
      simp [levFuel, ih g hg]

theorem lev_self (l : List Char) : lev l l = 0 :=
  levFuel_self l _ (by omega)

/-- Computable minimum on rationals (kept explicit so that concrete searches
evaluate inside the kernel). -/
def qmin (a b : ℚ) : ℚ := if a ≤ b then a else b

theorem le_qmin {c a b : ℚ} (h1 : c ≤ a) (h2 : c ≤ b) : c ≤ qmin a b := by
  unfold qmin; split <;> assumption

theorem qmin_eq_left {a b : ℚ} (h : a ≤ b) : qmin a b = a := by
  unfold qmin; exact if_pos h

/-- Modelled from the spec: the edit-distance-normalized dissimilarity of a
query and one searchable field, on a 0-1 scale (lower is a stronger match). -/
def normDist (q f : String) : ℚ :=
  let m := Nat.max q.data.length f.data.length
  if m = 0 then 0 else Rat.divInt (lev q.data f.data) m

theorem normDist_self (q : String) : normDist q q = 0 := by
  simp [normDist, lev_self]

theorem normDist_nonneg (q f : String) : 0 ≤ normDist q f := by
  simp only [normDist]
  split
  · exact le_refl 0
  · exact Rat.divInt_nonneg (Int.natCast_nonneg _) (Int.natCast_nonneg _)

/-- Modelled from the spec: the score of a record for a query, the best
(smallest) normalized dissimilarity over the searchable fields title, author
and id (the keys configured on the index in src/index.js line 213). -/
def recScore (q : String) (b : BookRecord) : ℚ :=
  qmin (normDist q b.title) (qmin (normDist q b.author) (normDist q b.id))

theorem recScore_nonneg (q : String) (b : BookRecord) : 0 ≤ recScore q b :=
  le_qmin (normDist_nonneg q b.title)
    (le_qmin (normDist_nonneg q b.author) (normDist_nonneg q b.id))

theorem recScore_of_title_eq (q : String) (b : BookRecord) (h : b.title = q) :
    recScore q b = 0 := by
  have h0 : normDist q b.title = 0 := by rw [h, normDist_self]
  rw [recScore, h0]
  exact qmin_eq_left (le_qmin (normDist_nonneg q b.author) (normDist_nonneg q b.id))

/-- The acceptance threshold configured on the index (src/index.js line 213),
the value 0.35 on the 0-1 scale. -/
def fuseThreshold : ℚ := Rat.divInt 35 100

/-- Comparison of scored records by score. -/
def scoreLE (a b : BookRecord × ℚ) : Prop := a.2 ≤ b.2

instance : DecidableRel scoreLE := fun a b => inferInstanceAs (Decidable (a.2 ≤ b.2))

instance : IsTotal (BookRecord × ℚ) scoreLE := ⟨fun a b => le_total a.2 b.2⟩

instance : IsTrans (BookRecord × ℚ) scoreLE := ⟨fun _ _ _ h1 h2 => le_trans h1 h2⟩

/-- Modelled from the spec: the matcher behind `fuse.search` (the Fuse.js
library is external to the repository).  Score every record, keep those whose
dissimilarity is below the threshold, and order ascending by score with a
stable sort (ties keep insertion order). -/
def fuseSearch (q : String) (books : List BookRecord) : List (BookRecord × ℚ) :=
  List.insertionSort scoreLE
    ((books.map (fun b => (b, recScore q b))).filter (fun p => decide (p.2 < fuseThreshold)))

theorem fuseSearch_mem {q : String} {books : List BookRecord} {p : BookRecord × ℚ}
    (h : p ∈ fuseSearch q books) : p ∈ books.map (fun b => (b, recScore q b)) ∧
      p.2 < fuseThreshold := by
  rw [fuseSearch, List.mem_insertionSort] at h
  obtain ⟨hm, hlt⟩ := List.mem_filter.mp h
  exact ⟨hm, of_decide_eq_true hlt⟩

/-- C2 (amended): every result scores strictly below the threshold, results
are sorted by non-decreasing score, an empty result (not an error) comes back
when nothing clears the threshold, a query equal to some title makes the
first result a perfect (score 0) match, and it is that record itself whenever
it is the only zero-score record. -/
theorem claim_C2 :
    (∀ (q : String) (books : List BookRecord) (p : BookRecord × ℚ),
        p ∈ fuseSearch q books → p.2 < fuseThreshold) ∧
    (∀ (q : String) (books : List BookRecord),
        List.Sorted scoreLE (fuseSearch q books)) ∧
    (∀ (q : String) (books : List BookRecord),
        (∀ b ∈ books, ¬ recScore q b < fuseThreshold) → fuseSearch q books = []) ∧
    (∀ (q : String) (books : List BookRecord) (b : BookRecord),
        b ∈ books → b.title = q →
        ∃ p, (fuseSearch q books).head? = some p ∧ p.2 = 0) ∧
    (∀ (q : String) (books : List BookRecord) (b : BookRecord),
        b ∈ books → b.title = q →
        (∀ b' ∈ books, recScore q b' = 0 → b' = b) →
        (fuseSearch q books).head? = some (b, 0)) := by
  have hmem0 : ∀ (q : String) (books : List BookRecord) (b : BookRecord),
      b ∈ books → b.title = q → (b, (0 : ℚ)) ∈ fuseSearch q books := by
    intro q books b hb ht
    rw [fuseSearch, List.mem_insertionSort]
    refine List.mem_filter.mpr ⟨?_, ?_⟩
    · have := List.mem_map_of_mem (fun b => (b, recScore q b)) hb
      simpa [recScore_of_title_eq q b ht] using this
    · have h0 : (0 : ℚ) < fuseThreshold := by decide
      exact decide_eq_true h0
  have hhead : ∀ (q : String) (books : List BookRecord) (b : BookRecord),
      b ∈ books → b.title = q →
      ∃ p, (fuseSearch q books).head? = some p ∧ p.2 = 0 ∧ p ∈ fuseSearch q books := by
    intro q books b hb ht
    have hne : fuseSearch q books ≠ [] := List.ne_nil_of_mem (hmem0 q books b hb ht)
    obtain ⟨h, t, he⟩ := List.exists_cons_of_ne_nil hne
    have hsorted : List.Sorted scoreLE (fuseSearch q books) :=
      List.sorted_insertionSort scoreLE _
    rw [he] at hsorted
    have hrel := (List.sorted_cons.mp hsorted).1
    have hh2 : h.2 = 0 := by
      have hmem := hmem0 q books b hb ht
      rw [he] at hmem
      have hle : h.2 ≤ 0 := by
        rcases List.mem_cons.mp hmem with heq | hmemt
        · rw [← heq]
        · exact hrel (b, 0) hmemt
      have hge : 0 ≤ h.2 := by
        have hh : h ∈ fuseSearch q books := by rw [he]; exact List.mem_cons_self h t
        obtain ⟨hm, _⟩ := fuseSearch_mem hh
        obtain ⟨b', _, hb'⟩ := List.mem_map.mp hm
        rw [← hb']
        exact recScore_nonneg q b'
      exact le_antisymm hle hge
    exact ⟨h, by rw [he]; rfl, hh2, by rw [he]; exact List.mem_cons_self h t⟩
  refine ⟨fun q books p h => (fuseSearch_mem h).2,
    fun q books => List.sorted_insertionSort scoreLE _, ?_, ?_, ?_⟩
  · intro q books hnone
    have hfil : (books.map (fun b => (b, recScore q b))).filter
        (fun p => decide (p.2 < fuseThreshold)) = [] := by
      rw [List.filter_eq_nil_iff]
      intro p hp
      obtain ⟨b, hb, hpb⟩ := List.mem_map.mp hp
      simp only [decide_eq_true_eq]
      rw [← hpb]
      exact hnone b hb
    rw [fuseSearch, hfil]
    rfl
  · intro q books b hb ht
    obtain ⟨p, h1, h2, _⟩ := hhead q books b hb ht
    exact ⟨p, h1, h2⟩
  · intro q books b hb ht huniq
    obtain ⟨p, h1, h2, hp⟩ := hhead q books b hb ht
    obtain ⟨hm, _⟩ := fuseSearch_mem hp
    obtain ⟨b', hb', hpb⟩ := List.mem_map.mp hm
    have hsc : recScore q b' = 0 := by
      have : p.2 = recScore q b' := by rw [← hpb]
      rw [← this, h2]
    have hbb : b' = b := huniq b' hb' hsc
    have hpv : p = (b, 0) := by rw [← hpb, hsc, hbb]
    rw [← hpv]
    exact h1

/-- Counterexample to C2 as stated: with a catalog whose first record carries
the query string as its id and whose second record carries it as its title,
the query ties both at score 0 and the stable order returns the id-matching
record first, not the record whose title equals the query. -/
theorem claim_C2_counterexample :
    (⟨"", "x", "", "g"⟩ : BookRecord) ∈
        [(⟨"x", "y", "", "f"⟩ : BookRecord), ⟨"", "x", "", "g"⟩] ∧
    (⟨"", "x", "", "g"⟩ : BookRecord).title = "x" ∧
    (fuseSearch "x" [⟨"x", "y", "", "f"⟩, ⟨"", "x", "", "g"⟩]).head? =
      some (⟨"x", "y", "", "f"⟩, 0) ∧
    (⟨"x", "y", "", "f"⟩ : BookRecord).title ≠ "x" := by
  decide

/-- Concrete witness for C2 on one-record catalogs. -/
theorem claim_C2_witness :
    ((⟨"", "bk", "", "f"⟩ : BookRecord), (0 : ℚ)).2 < fuseThreshold ∧
    List.Sorted scoreLE (fuseSearch "bk" [⟨"", "bk", "", "f"⟩]) ∧
    fuseSearch "zz" [⟨"", "bk", "", "f"⟩] = [] ∧
    (∃ p, (fuseSearch "bk" [⟨"", "bk", "", "f"⟩]).head? = some p ∧ p.2 = 0) ∧
    (fuseSearch "bk" [⟨"", "bk", "", "f"⟩]).head? = some (⟨"", "bk", "", "f"⟩, 0) :=
  ⟨claim_C2.1 "bk" [⟨"", "bk", "", "f"⟩] (⟨"", "bk", "", "f"⟩, 0) (by decide),
   claim_C2.2.1 "bk" [⟨"", "bk", "", "f"⟩],
   claim_C2.2.2.1 "zz" [⟨"", "bk", "", "f"⟩] (by decide),
   claim_C2.2.2.2.1 "bk" [⟨"", "bk", "", "f"⟩] ⟨"", "bk", "", "f"⟩ (by decide) rfl,
   claim_C2.2.2.2.2 "bk" [⟨"", "bk", "", "f"⟩] ⟨"", "bk", "", "f"⟩ (by decide) rfl
     (by decide)⟩

/-! ### Handler data model (src/index.js lines 770-977) -/

/-- Incoming document payload (`msg.document`). -/
structure TDocument where
  file_id : String
  mime_type : String
deriving DecidableEq, Repr

/-- The parts of an incoming Telegram message the handler looks at. -/
structure TMessage where
  chatType : String
  chatId : Int
  fromId : String
  document : Option TDocument
  caption : Option String
  replyTo : Bool
  text : Option String
  username : Option String
  firstName : Option String
  lastName : Option String
deriving DecidableEq, Repr

/-- The mutable module-level state of the bot process: the in-memory book
index (line 149), the rate-limiter map (line 284), the pending intake
sessions (line 151) and the request ledger (`db.requests`). -/
structure BotState where
  books : List BookRecord
  lastRequestAt : List (String × Int)
  waitingForMeta : List (Int × Session)
  requests : List RequestRecord
deriving DecidableEq, Repr

/-- Outcomes of the external collaborators during one handler run: the clock,
whether the sheet append succeeds, the rows returned by the sheet fetch
(none = fetch error), the administrator roster, per-admin notification
delivery success, and document delivery success. -/
structure Env where
  now : Int
  appendOk : Bool
  fetchRows : Option (List (List String))
  adminIds : List String
  adminSendOk : String → Bool
  docSendOk : Bool

/-- The kind of message the handler answers with (the `bot.sendMessage`
calls of the source, by branch). -/
inductive Reply where
  | noReply
  | slowDown
  | unsupportedType (mime : String)
  | captionFormatError
  | duplicateDocument (existingTitle : String)
  | savedCaption (title : String)
  | saveFailed (title : String)
  | askMeta (mime : String)
  | invalidMetadata
  | savedMeta (title : String)
  | metaSaveFailed
  | noMatch (query : String)
  | found (title : String)
  | deliveryFailed (title : String)
deriving DecidableEq, Repr

/-- Result of one handler run: the new state, the rows successfully appended
to the remote sheet, the admin notification attempts (recipient, delivered),
and the reply sent to the chat. -/
structure HOut where
  state : BotState
  appendedRows : List (List String)
  notified : List (String × Bool)
  reply : Reply
deriving DecidableEq, Repr

/-! ### Handler helpers -/

/-- `isAdmin` (src/index.js lines 156-158). -/
def isAdmin (adminIds : List String) (userId : String) : Bool :=
  adminIds.contains userId

/-- The media-type allow-list (src/index.js lines 161-173). -/
def allowedTypes : List String :=
  ["application/pdf",
   "application/msword",
   "application/vnd.openxmlformats-officedocument.wordprocessingml.document",
   "application/vnd.ms-excel",
   "application/vnd.openxmlformats-officedocument.spreadsheetml.sheet",
   "application/vnd.ms-powerpoint",
   "application/vnd.openxmlformats-officedocument.presentationml.presentation",
   "text/plain",
   "application/rtf",
   "application/epub+zip",
   "application/x-mobipocket-ebook"]

/-- `isValidDocumentType` (src/index.js lines 160-175). -/
def isValidDocumentType (mimeType : String) : Bool :=
  allowedTypes.contains mimeType

/-- `findByFileId` (src/index.js lines 296-298): exact file-id equality. -/
def findByFileId (books : List BookRecord) (file_id : String) : Option BookRecord :=
  books.find? (fun b => b.file_id == file_id)

/-- Model of the JavaScript single-character `split` on the pipe character. -/
def splitBar : List Char → List (List Char)
  | [] => [[]]
  | c :: rest =>
    match splitBar rest with
    | [] => [[c]]
    | h :: t => if c = '|' then [] :: h :: t else (c :: h) :: t

/-- `caption.split('|').map(s => s.trim())` (src/index.js lines 798, 827). -/
def parseParts (s : String) : List String :=
  (splitBar s.data).map (fun l => String.mk (jsTrimList l))

/-- The row built by `appendRowToSheet` (src/index.js line 228): id, title
and author go through `safeText`, the file id through `safeFileId`. -/
def appendRowValues (id title author file_id : String) : List String :=
  [safeText id, safeText title, safeText author, safeFileId file_id]

/-- `loadSheet` (src/index.js lines 192-224) as a state transformer: a fetch
failure propagates the error and leaves the state untouched; a successful
fetch replaces the whole generation with the freshly parsed rows. -/
def loadSheet (fetchRows : Option (List (List String))) (st : BotState) :
    BotState × Except Unit Nat :=
  match fetchRows with
  | none => (st, Except.error ())
  | some rows =>
    let parsed := parseSheetRows rows
    ({ st with books := parsed }, Except.ok parsed.length)

/-- `notifyAdminsAboutRequest` (src/index.js lines 260-278): iterate the
roster in order; each send is wrapped in its own try/catch, so a failed
delivery (modelled by `sendOk a = false`) is logged and the loop continues
with the remaining administrators either way. -/
def notifyAdmins (sendOk : String → Bool) : List String → List (String × Bool)
  | [] => []
  | a :: rest =>
    match sendOk a with
    | true => (a, true) :: notifyAdmins sendOk rest
    | false => (a, false) :: notifyAdmins sendOk rest

/-- `(msg.from.username || firstName lastName).trim()` (src/index.js line 859). -/
def userNameOf (msg : TMessage) : String :=
  let names := (msg.firstName.getD "") ++ " " ++ (msg.lastName.getD "")
  let base :=
    match msg.username with
    | some u => if u = "" then names else u
    | none => names
  jsTrim base

/-- The request-ledger record pushed on a zero-result query
(src/index.js lines 856-862). -/
def mkRequest (env : Env) (fromId userName query : String) : RequestRecord :=
  { rid := toString env.now ++ "_" ++ fromId
    userId := fromId
    userName := userName
    query := query
    createdAt := env.now }

/-! ### The message handler (src/index.js lines 770-977) -/

/-- The admin-document branch (src/index.js lines 784-822): validate the
media type, then either the caption path (parse, duplicate check, append and
reload) or, with no caption, create/overwrite the intake session. -/
def handleAdminDocument (env : Env) (st : BotState) (msg : TMessage)
    (doc : TDocument) : HOut :=
  let file_id := safeFileId doc.file_id
  let mimeType := doc.mime_type
  let caption := safeText (msg.caption.getD "")
  if !isValidDocumentType mimeType then ⟨st, [], [], Reply.unsupportedType mimeType⟩
  else if caption ≠ "" then
    let parts := parseParts caption
    let id := parts.getD 0 ""
    let title := parts.getD 1 ""
    let author := parts.getD 2 ""
    if title = "" ∨ file_id = "" then ⟨st, [], [], Reply.captionFormatError⟩
    else
      match findByFileId st.books file_id with
      | some existing => ⟨st, [], [], Reply.duplicateDocument existing.title⟩
      | none =>
        if env.appendOk then
          let row := appendRowValues id title author file_id
          match loadSheet env.fetchRows st with
          | (st2, Except.ok _) => ⟨st2, [row], [], Reply.savedCaption title⟩
          | (st2, Except.error _) => ⟨st2, [row], [], Reply.saveFailed title⟩
        else ⟨st, [], [], Reply.saveFailed title⟩
  else
    ⟨{ st with waitingForMeta := aset msg.chatId ⟨file_id, mimeType⟩ st.waitingForMeta },
      [], [], Reply.askMeta mimeType⟩

/-- The metadata-reply branch (src/index.js lines 825-844): parse the reply
like a caption; on success append the row, then delete the session, then
reload; on append failure the catch leaves the session in place. -/
def handleMetaReply (env : Env) (st : BotState) (chatId : Int) (sess : Session)
    (t : String) : HOut :=
  let meta := safeText t
  let parts := parseParts meta
  let id := parts.getD 0 ""
  let title := parts.getD 1 ""
  let author := parts.getD 2 ""
  let file_id := sess.file_id
  if title = "" ∨ file_id = "" then ⟨st, [], [], Reply.invalidMetadata⟩
  else if env.appendOk then
    let row := appendRowValues id title author file_id
    let st1 := { st with waitingForMeta := adel chatId st.waitingForMeta }
    match loadSheet env.fetchRows st1 with
    | (st2, Except.ok _) => ⟨st2, [row], [], Reply.savedMeta title⟩
    | (st2, Except.error _) => ⟨st2, [row], [], Reply.metaSaveFailed⟩
  else ⟨st, [], [], Reply.metaSaveFailed⟩

/-- The plain-text branch (src/index.js lines 850-972): sanitize the query,
search the index; with no result record the request and fan out to the
admins; with a result attempt delivery, notifying the admins on failure. -/
def handleText (env : Env) (st : BotState) (msg : TMessage) (t : String) : HOut :=
  let query := safeText (jsTrim t)
  if query = "" then ⟨st, [], [], Reply.noReply⟩
  else
    match fuseSearch query st.books with
    | [] =>
      let req := mkRequest env msg.fromId (userNameOf msg) query
      ⟨{ st with requests := st.requests ++ [req] }, [],
        notifyAdmins env.adminSendOk env.adminIds, Reply.noMatch query⟩
    | best :: _ =>
      if env.docSendOk then ⟨st, [], [], Reply.found best.1.title⟩
      else ⟨st, [], notifyAdmins env.adminSendOk env.adminIds,
        Reply.deliveryFailed best.1.title⟩

/-- Model of `msg.text.startsWith('/')` (src/index.js line 847): the first
character is the slash. -/
def startsWithSlash (t : String) : Bool :=
  match t.data with
  | [] => false
  | c :: _ => c = '/'

/-- The command guard ahead of the plain-text branch (src/index.js line 847). -/
def handleCommandOrText (env : Env) (st : BotState) (msg : TMessage)
    (t : String) : HOut :=
  if startsWithSlash t then ⟨st, [], [], Reply.noReply⟩
  else handleText env st msg t

/-- Everything after the admin-document branch: the metadata-reply guard
(src/index.js line 825) followed by the command guard and text branch.  The
JavaScript truthiness test on `msg.text` is an emptiness test. -/
def handleRest (env : Env) (st : BotState) (msg : TMessage) : HOut :=
  match msg.text with
  | none => ⟨st, [], [], Reply.noReply⟩
  | some t =>
    if t = "" then ⟨st, [], [], Reply.noReply⟩
    else
      match alookup msg.chatId st.waitingForMeta with
      | some sess =>
        if msg.replyTo && isAdmin env.adminIds msg.fromId then
          handleMetaReply env st msg.chatId sess t
        else handleCommandOrText env st msg t
      | none => handleCommandOrText env st msg t

/-- The message handler (src/index.js lines 770-977): only private chats,
then the rate-limit gate, then the admin-document branch, then the rest. -/
def handleMessage (env : Env) (st : BotState) (msg : TMessage) : HOut :=
  if msg.chatType ≠ "private" then ⟨st, [], [], Reply.noReply⟩
  else
    let r := rateLimit env.now st.lastRequestAt msg.fromId
    if !r.1 then ⟨st, [], [], Reply.slowDown⟩
    else
      let st1 := { st with lastRequestAt := r.2 }
      match msg.document with
      | some doc =>
        if isAdmin env.adminIds msg.fromId then handleAdminDocument env st1 msg doc
        else handleRest env st1 msg
      | none => handleRest env st1 msg

/-! ### Handler dispatch lemmas -/

theorem loadSheet_waitingForMeta (f : Option (List (List String))) (s : BotState) :
    (loadSheet f s).1.waitingForMeta = s.waitingForMeta := by
  cases f <;> rfl

theorem handleMessage_doc (env : Env) (st : BotState) (msg : TMessage) (doc : TDocument)
    (hpriv : msg.chatType = "private")
    (hrate : ¬ env.now - (alookup msg.fromId st.lastRequestAt).getD 0 < RATE_WINDOW_MS)
    (hdoc : msg.document = some doc)
    (hadm : isAdmin env.adminIds msg.fromId = true) :
    handleMessage env st msg =
      handleAdminDocument env
        { st with lastRequestAt := aset msg.fromId env.now st.lastRequestAt } msg doc := by
  simp only [handleMessage, hpriv, hdoc, rateLimit_accept hrate]
  simp [hadm]

theorem handleMessage_nodoc (env : Env) (st : BotState) (msg : TMessage)
    (hpriv : msg.chatType = "private")
    (hrate : ¬ env.now - (alookup msg.fromId st.lastRequestAt).getD 0 < RATE_WINDOW_MS)
    (hdoc : msg.document = none) :
    handleMessage env st msg =
      handleRest env { st with lastRequestAt := aset msg.fromId env.now st.lastRequestAt } msg := by
  simp only [handleMessage, hpriv, hdoc, rateLimit_accept hrate]
  simp

theorem handleRest_meta (env : Env) (st : BotState) (msg : TMessage) (t : String)
    (sess : Session) (ht : msg.text = some t) (hne : t ≠ "")
    (hsess : alookup msg.chatId st.waitingForMeta = some sess)
    (hcond : (msg.replyTo && isAdmin env.adminIds msg.fromId) = true) :
    handleRest env st msg = handleMetaReply env st msg.chatId sess t := by
  simp [handleRest, ht, hne, hsess, hcond]

theorem handleRest_nosession (env : Env) (st : BotState) (msg : TMessage) (t : String)
    (ht : msg.text = some t) (hne : t ≠ "")
    (hsess : alookup msg.chatId st.waitingForMeta = none) :
    handleRest env st msg = handleCommandOrText env st msg t := by
  simp [handleRest, ht, hne, hsess]

/-! ### Claim C5 -/

/-- C5: when the sheet fetch fails, `loadSheet` propagates the error and the
whole in-memory state, the book generation included, is exactly what it was;
when the fetch succeeds the generation is replaced wholesale by the parse of
the fetched rows (never partially). -/
theorem claim_C5 :
    (∀ st : BotState, loadSheet none st = (st, Except.error ())) ∧
    (∀ (st : BotState) (rows : List (List String)),
        (loadSheet (some rows) st).1.books = parseSheetRows rows ∧
        (loadSheet (some rows) st).1.lastRequestAt = st.lastRequestAt ∧
        (loadSheet (some rows) st).1.waitingForMeta = st.waitingForMeta ∧
        (loadSheet (some rows) st).1.requests = st.requests ∧
        (loadSheet (some rows) st).2 = Except.ok (parseSheetRows rows).length) :=
  ⟨fun _ => rfl, fun _ _ => ⟨rfl, rfl, rfl, rfl, rfl⟩⟩

/-! ### Claim C10 -/

/-- C10: every private-chat message hits the rate limiter first; a message
arriving less than a window after the last admitted event of the same user
is answered only with the slow-down message; the state, the pending intake
session included, is untouched, and nothing is appended or notified. -/
theorem claim_C10 (env : Env) (st : BotState) (msg : TMessage)
    (hpriv : msg.chatType = "private")
    (hrate : env.now - (alookup msg.fromId st.lastRequestAt).getD 0 < RATE_WINDOW_MS) :
    handleMessage env st msg = ⟨st, [], [], Reply.slowDown⟩ := by
  simp only [handleMessage, hpriv, rateLimit_reject hrate]
  simp

/-- Concrete witness for C10: an admin metadata reply arriving 100 ms after
the last admitted event is rejected and the pending session survives. -/
theorem claim_C10_witness :
    handleMessage ⟨100, true, none, ["9"], fun _ => true, true⟩
        ⟨[], [("9", 0)], [(7, ⟨"F", "application/pdf"⟩)], []⟩
        ⟨"private", 7, "9", none, none, true, some "1|T|A", none, none, none⟩ =
      ⟨⟨[], [("9", 0)], [(7, ⟨"F", "application/pdf"⟩)], []⟩, [], [], Reply.slowDown⟩ :=
  claim_C10 ⟨100, true, none, ["9"], fun _ => true, true⟩
    ⟨[], [("9", 0)], [(7, ⟨"F", "application/pdf"⟩)], []⟩
    ⟨"private", 7, "9", none, none, true, some "1|T|A", none, none, none⟩
    rfl (by decide)

/-! ### Claim C8 -/

theorem notifyAdmins_fst (sendOk : String → Bool) :
    ∀ l : List String, (notifyAdmins sendOk l).map Prod.fst = l := by
  intro l
  induction l with
  | nil => rfl
  | cons a rest ih => cases h : sendOk a <;> simp [notifyAdmins, h, ih]

/-- C8: a query with zero matches appends exactly one record to the request
ledger and attempts one notification delivery per administrator in roster
order; the attempt list equals the whole roster for every delivery-outcome
oracle, so one failed delivery never prevents the remaining attempts. -/
theorem claim_C8 (env : Env) (st : BotState) (msg : TMessage) (t : String)
    (hpriv : msg.chatType = "private")
    (hrate : ¬ env.now - (alookup msg.fromId st.lastRequestAt).getD 0 < RATE_WINDOW_MS)
    (hdoc : msg.document = none)
    (ht : msg.text = some t) (hne : t ≠ "")
    (hsess : alookup msg.chatId st.waitingForMeta = none)
    (hcmd : startsWithSlash t = false)
    (hq : safeText (jsTrim t) ≠ "")
    (hzero : fuseSearch (safeText (jsTrim t)) st.books = []) :
    handleMessage env st msg =
      ⟨{ st with
          lastRequestAt := aset msg.fromId env.now st.lastRequestAt,
          requests := st.requests ++
            [mkRequest env msg.fromId (userNameOf msg) (safeText (jsTrim t))] },
        [], notifyAdmins env.adminSendOk env.adminIds,
        Reply.noMatch (safeText (jsTrim t))⟩ ∧
    (notifyAdmins env.adminSendOk env.adminIds).map Prod.fst = env.adminIds := by
  refine ⟨?_, notifyAdmins_fst env.adminSendOk env.adminIds⟩
  rw [handleMessage_nodoc env st msg hpriv hrate hdoc]
  rw [handleRest_nosession env _ msg t ht hne (by simpa using hsess)]
  simp [handleCommandOrText, hcmd, handleText, hq, hzero]

/-- Concrete witness for C8: a two-admin roster where delivery to the first
admin fails and the second is still attempted. -/
theorem claim_C8_witness :
    handleMessage ⟨2000, true, none, ["a", "b"], fun u => u == "b", true⟩
        ⟨[], [], [], []⟩
        ⟨"private", 7, "9", none, none, false, some "zz", some "u", none, none⟩ =
      ⟨⟨[], aset "9" 2000 [], [],
          [] ++
            [mkRequest ⟨2000, true, none, ["a", "b"], fun u => u == "b", true⟩ "9"
              (userNameOf ⟨"private", 7, "9", none, none, false, some "zz", some "u", none, none⟩)
              (safeText (jsTrim "zz"))]⟩,
        [], notifyAdmins (fun u => u == "b") ["a", "b"],
        Reply.noMatch (safeText (jsTrim "zz"))⟩ ∧
    (notifyAdmins (fun u => u == "b") ["a", "b"]).map Prod.fst = ["a", "b"] :=
  claim_C8 ⟨2000, true, none, ["a", "b"], fun u => u == "b", true⟩ ⟨[], [], [], []⟩
    ⟨"private", 7, "9", none, none, false, some "zz", some "u", none, none⟩ "zz"
    rfl (by decide) rfl rfl (by decide) rfl (by decide) (by decide) (by decide)

/-! ### Session-map shape of the handler -/

theorem handleAdminDocument_waitingForMeta (env : Env) (st : BotState) (msg : TMessage)
    (doc : TDocument) :
    (handleAdminDocument env st msg doc).state.waitingForMeta = st.waitingForMeta ∨
    (handleAdminDocument env st msg doc).state.waitingForMeta =
      aset msg.chatId ⟨safeFileId doc.file_id, doc.mime_type⟩ st.waitingForMeta := by
  simp only [handleAdminDocument]
  split
  · exact Or.inl rfl
  · split
    · split
      · exact Or.inl rfl
      · split
        · exact Or.inl rfl
        · split
          · split
            next st2 n heq =>
              left
              have h := loadSheet_waitingForMeta env.fetchRows st
              rw [heq] at h
              exact h
            next st2 e heq =>
              left
              have h := loadSheet_waitingForMeta env.fetchRows st
              rw [heq] at h
              exact h
          · exact Or.inl rfl
    · exact Or.inr rfl

theorem handleMetaReply_waitingForMeta (env : Env) (st : BotState) (chatId : Int)
    (sess : Session) (t : String) :
    (handleMetaReply env st chatId sess t).state.waitingForMeta = st.waitingForMeta ∨
    (handleMetaReply env st chatId sess t).state.waitingForMeta =
      adel chatId st.waitingForMeta := by
  simp only [handleMetaReply]
  split
  · exact Or.inl rfl
  · split
    · split
      next st2 n heq =>
        right
        have h := loadSheet_waitingForMeta env.fetchRows
          { st with waitingForMeta := adel chatId st.waitingForMeta }
        rw [heq] at h
        exact h
      next st2 e heq =>
        right
        have h := loadSheet_waitingForMeta env.fetchRows
          { st with waitingForMeta := adel chatId st.waitingForMeta }
        rw [heq] at h
        exact h
    · exact Or.inl rfl

theorem handleText_waitingForMeta (env : Env) (st : BotState) (msg : TMessage)
    (t : String) :
    (handleText env st msg t).state.waitingForMeta = st.waitingForMeta := by
  simp only [handleText]
  split
  · rfl
  · split
    · rfl
    · split <;> rfl

theorem handleCommandOrText_waitingForMeta (env : Env) (st : BotState) (msg : TMessage)
    (t : String) :
    (handleCommandOrText env st msg t).state.waitingForMeta = st.waitingForMeta := by
  simp only [handleCommandOrText]
  split
  · rfl
  · exact handleText_waitingForMeta env st msg t

theorem handleRest_waitingForMeta (env : Env) (st : BotState) (msg : TMessage) :
    (handleRest env st msg).state.waitingForMeta = st.waitingForMeta ∨
    (handleRest env st msg).state.waitingForMeta = adel msg.chatId st.waitingForMeta := by
  simp only [handleRest]
  split
  · exact Or.inl rfl
  · split
    · exact Or.inl rfl
    · split
      · split
        · exact handleMetaReply_waitingForMeta env st msg.chatId _ _
        · exact Or.inl (handleCommandOrText_waitingForMeta env st msg _)
      · exact Or.inl (handleCommandOrText_waitingForMeta env st msg _)

theorem handleMessage_waitingForMeta (env : Env) (st : BotState) (msg : TMessage) :
    (handleMessage env st msg).state.waitingForMeta = st.waitingForMeta ∨
    (∃ s, (handleMessage env st msg).state.waitingForMeta =
      aset msg.chatId s st.waitingForMeta) ∨
    (handleMessage env st msg).state.waitingForMeta = adel msg.chatId st.waitingForMeta := by
  simp only [handleMessage]
  split
  · exact Or.inl rfl
  · split
    · exact Or.inl rfl
    · split
      · split
        · rcases handleAdminDocument_waitingForMeta env
            { st with lastRequestAt := (rateLimit env.now st.lastRequestAt msg.fromId).2 }
            msg _ with h | h
          · exact Or.inl h
          · exact Or.inr (Or.inl ⟨_, h⟩)
        · rcases handleRest_waitingForMeta env
            { st with lastRequestAt := (rateLimit env.now st.lastRequestAt msg.fromId).2 }
            msg with h | h
          · exact Or.inl h
          · exact Or.inr (Or.inr h)
      · rcases handleRest_waitingForMeta env
          { st with lastRequestAt := (rateLimit env.now st.lastRequestAt msg.fromId).2 }
          msg with h | h
        · exact Or.inl h
        · exact Or.inr (Or.inr h)

/-- The intake-session map invariant: at most one entry per conversation. -/
def sessionsAtMostOne (st : BotState) : Prop :=
  ∀ k : Int, countKeys k st.waitingForMeta ≤ 1

/-! ### Metadata-reply branch lemmas -/

theorem handleMetaReply_success (env : Env) (st : BotState) (chatId : Int)
    (sess : Session) (t : String)
    (htitle : (parseParts (safeText t)).getD 1 "" ≠ "")
    (hfid : sess.file_id ≠ "")
    (happ : env.appendOk = true) :
    (handleMetaReply env st chatId sess t).state.waitingForMeta =
      adel chatId st.waitingForMeta ∧
    (handleMetaReply env st chatId sess t).appendedRows =
      [appendRowValues ((parseParts (safeText t)).getD 0 "")
        ((parseParts (safeText t)).getD 1 "")
        ((parseParts (safeText t)).getD 2 "") sess.file_id] ∧
    (env.fetchRows = none →
      (handleMetaReply env st chatId sess t).reply = Reply.metaSaveFailed) := by
  simp only [handleMetaReply]
  rw [if_neg (by simp only [not_or]; exact ⟨htitle, hfid⟩), happ]
  cases hf : env.fetchRows with
  | none => simp [loadSheet, hf]
  | some rows => simp [loadSheet, hf]

theorem handleMetaReply_appendFail (env : Env) (st : BotState) (chatId : Int)
    (sess : Session) (t : String)
    (htitle : (parseParts (safeText t)).getD 1 "" ≠ "")
    (hfid : sess.file_id ≠ "")
    (happ : env.appendOk = false) :
    handleMetaReply env st chatId sess t = ⟨st, [], [], Reply.metaSaveFailed⟩ := by
  simp only [handleMetaReply]
  rw [if_neg (by simp only [not_or]; exact ⟨htitle, hfid⟩), happ]
  simp

theorem handleMetaReply_invalid (env : Env) (st : BotState) (chatId : Int)
    (sess : Session) (t : String)
    (htitle : (parseParts (safeText t)).getD 1 "" = "") :
    handleMetaReply env st chatId sess t = ⟨st, [], [], Reply.invalidMetadata⟩ := by
  simp only [handleMetaReply]
  rw [if_pos (Or.inl htitle)]

/-! ### Admin-document branch lemmas -/

theorem handleAdminDocument_noCaption (env : Env) (st : BotState) (msg : TMessage)
    (doc : TDocument)
    (hmime : isValidDocumentType doc.mime_type = true)
    (hcap : safeText (msg.caption.getD "") = "") :
    handleAdminDocument env st msg doc =
      ⟨{ st with
          waitingForMeta :=
            aset msg.chatId ⟨safeFileId doc.file_id, doc.mime_type⟩ st.waitingForMeta },
        [], [], Reply.askMeta doc.mime_type⟩ := by
  simp only [handleAdminDocument]
  rw [if_neg (by simp [hmime]), if_neg (by simp [hcap])]

theorem handleAdminDocument_badTitle (env : Env) (st : BotState) (msg : TMessage)
    (doc : TDocument)
    (hmime : isValidDocumentType doc.mime_type = true)
    (hcap : safeText (msg.caption.getD "") ≠ "")
    (htitle : (parseParts (safeText (msg.caption.getD ""))).getD 1 "" = "") :
    handleAdminDocument env st msg doc = ⟨st, [], [], Reply.captionFormatError⟩ := by
  simp only [handleAdminDocument]
  rw [if_neg (by simp [hmime]), if_pos hcap, if_pos (Or.inl htitle)]

theorem handleAdminDocument_dup (env : Env) (st : BotState) (msg : TMessage)
    (doc : TDocument) (ex : BookRecord)
    (hmime : isValidDocumentType doc.mime_type = true)
    (hcap : safeText (msg.caption.getD "") ≠ "")
    (htitle : (parseParts (safeText (msg.caption.getD ""))).getD 1 "" ≠ "")
    (hfid : safeFileId doc.file_id ≠ "")
    (hdup : findByFileId st.books (safeFileId doc.file_id) = some ex) :
    handleAdminDocument env st msg doc = ⟨st, [], [], Reply.duplicateDocument ex.title⟩ := by
  simp only [handleAdminDocument]
  rw [if_neg (by simp [hmime]), if_pos hcap,
    if_neg (by simp only [not_or]; exact ⟨htitle, hfid⟩), hdup]

/-! ### Claim C3 -/

/-- C3 (amended): an admin document upload without caption creates the intake
session for the conversation, silently overwriting any pending one; the
session map keeps at most one session per conversation; a valid metadata
reply consumes the session (absent afterwards); and a textual reply with no
session for the conversation is never treated as metadata — it goes to the
ordinary text handling, which searches exactly when the text is not
command-prefixed (and is otherwise ignored). -/
theorem claim_C3 :
    (∀ (env : Env) (st : BotState) (msg : TMessage) (doc : TDocument),
        msg.chatType = "private" →
        ¬ env.now - (alookup msg.fromId st.lastRequestAt).getD 0 < RATE_WINDOW_MS →
        msg.document = some doc →
        isAdmin env.adminIds msg.fromId = true →
        isValidDocumentType doc.mime_type = true →
        safeText (msg.caption.getD "") = "" →
        handleMessage env st msg =
          ⟨{ st with
              lastRequestAt := aset msg.fromId env.now st.lastRequestAt,
              waitingForMeta := aset msg.chatId ⟨safeFileId doc.file_id, doc.mime_type⟩
                st.waitingForMeta }, [], [], Reply.askMeta doc.mime_type⟩ ∧
          alookup msg.chatId (handleMessage env st msg).state.waitingForMeta =
            some ⟨safeFileId doc.file_id, doc.mime_type⟩) ∧
    (∀ (env : Env) (st : BotState) (msg : TMessage),
        sessionsAtMostOne st → sessionsAtMostOne (handleMessage env st msg).state) ∧
    (∀ (env : Env) (st : BotState) (msg : TMessage) (t : String) (sess : Session),
        msg.chatType = "private" →
        ¬ env.now - (alookup msg.fromId st.lastRequestAt).getD 0 < RATE_WINDOW_MS →
        msg.document = none →
        msg.text = some t → t ≠ "" →
        alookup msg.chatId st.waitingForMeta = some sess →
        (msg.replyTo && isAdmin env.adminIds msg.fromId) = true →
        (parseParts (safeText t)).getD 1 "" ≠ "" →
        sess.file_id ≠ "" →
        env.appendOk = true →
        alookup msg.chatId (handleMessage env st msg).state.waitingForMeta = none) ∧
    (∀ (env : Env) (st : BotState) (msg : TMessage) (t : String),
        msg.chatType = "private" →
        ¬ env.now - (alookup msg.fromId st.lastRequestAt).getD 0 < RATE_WINDOW_MS →
        msg.document = none →
        msg.text = some t → t ≠ "" →
        alookup msg.chatId st.waitingForMeta = none →
        handleMessage env st msg =
          handleCommandOrText env
            { st with lastRequestAt := aset msg.fromId env.now st.lastRequestAt } msg t ∧
        (startsWithSlash t = false →
          handleMessage env st msg =
            handleText env
              { st with lastRequestAt := aset msg.fromId env.now st.lastRequestAt } msg t)) := by
  refine ⟨?_, ?_, ?_, ?_⟩
  · intro env st msg doc hpriv hrate hdoc hadm hmime hcap
    have hmain : handleMessage env st msg =
        ⟨{ st with
            lastRequestAt := aset msg.fromId env.now st.lastRequestAt,
            waitingForMeta := aset msg.chatId ⟨safeFileId doc.file_id, doc.mime_type⟩
              st.waitingForMeta }, [], [], Reply.askMeta doc.mime_type⟩ := by
      rw [handleMessage_doc env st msg doc hpriv hrate hdoc hadm]
      exact handleAdminDocument_noCaption env _ msg doc hmime hcap
    exact ⟨hmain, by rw [hmain]; exact alookup_aset_self msg.chatId _ st.waitingForMeta⟩
  · intro env st msg h k
    rcases handleMessage_waitingForMeta env st msg with hw | ⟨s, hw⟩ | hw
    · rw [hw]; exact h k
    · rw [hw]; exact countKeys_aset_le k msg.chatId s st.waitingForMeta (h k)
    · rw [hw]; exact countKeys_adel_le k msg.chatId st.waitingForMeta (h k)
  · intro env st msg t sess hpriv hrate hdoc ht hne hsess hcond htitle hfid happ
    rw [handleMessage_nodoc env st msg hpriv hrate hdoc,
      handleRest_meta env
        { st with lastRequestAt := aset msg.fromId env.now st.lastRequestAt }
        msg t sess ht hne hsess hcond,
      (handleMetaReply_success env
        { st with lastRequestAt := aset msg.fromId env.now st.lastRequestAt }
        msg.chatId sess t htitle hfid happ).1]
    exact alookup_adel_self msg.chatId _
  · intro env st msg t hpriv hrate hdoc ht hne hsess
    have hmain : handleMessage env st msg =
        handleCommandOrText env
          { st with lastRequestAt := aset msg.fromId env.now st.lastRequestAt } msg t := by
      rw [handleMessage_nodoc env st msg hpriv hrate hdoc]
      exact handleRest_nosession env
        { st with lastRequestAt := aset msg.fromId env.now st.lastRequestAt }
        msg t ht hne hsess
    refine ⟨hmain, fun hcmd => ?_⟩
    rw [hmain]
    simp [handleCommandOrText, hcmd]

/-- Counterexample to C3 as stated: with no session pending, a reply whose
text is a well-formed metadata triple but starts with the command prefix is
neither treated as metadata nor as a search query — the handler ignores it
(no search, no ledger append, no notification), while the claim says any
such textual reply becomes an ordinary search query. -/
theorem claim_C3_counterexample :
    (parseParts (safeText "/a|B|c")).getD 1 "" ≠ "" ∧
    safeText (jsTrim "/a|B|c") ≠ "" ∧
    handleMessage ⟨5000, true, none, ["9"], fun _ => true, true⟩ ⟨[], [], [], []⟩
        ⟨"private", 7, "9", none, none, true, some "/a|B|c", none, none, none⟩ =
      ⟨⟨[], [("9", 5000)], [], []⟩, [], [], Reply.noReply⟩ := by
  decide

/-- Concrete witness for C3: session creation by an uncaptioned upload,
invariant preservation, consumption by a valid reply, and query routing of a
session-less text. -/
theorem claim_C3_witness :
    (handleMessage ⟨1000, true, none, ["9"], fun _ => true, true⟩ ⟨[], [], [], []⟩
        ⟨"private", 7, "9", some ⟨"F", "application/pdf"⟩, none, false, none, none, none, none⟩ =
      ⟨⟨[], aset "9" 1000 [], aset 7 ⟨safeFileId "F", "application/pdf"⟩ [], []⟩,
        [], [], Reply.askMeta "application/pdf"⟩ ∧
      alookup 7 (handleMessage ⟨1000, true, none, ["9"], fun _ => true, true⟩ ⟨[], [], [], []⟩
        ⟨"private", 7, "9", some ⟨"F", "application/pdf"⟩, none, false, none, none,
          none, none⟩).state.waitingForMeta = some ⟨safeFileId "F", "application/pdf"⟩) ∧
    sessionsAtMostOne (handleMessage ⟨1000, true, none, ["9"], fun _ => true, true⟩
      ⟨[], [], [], []⟩
      ⟨"private", 7, "9", some ⟨"F", "application/pdf"⟩, none, false, none, none, none,
        none⟩).state ∧
    alookup 7 (handleMessage ⟨1000, true, none, ["9"], fun _ => true, true⟩
      ⟨[], [], [(7, ⟨"F", "application/pdf"⟩)], []⟩
      ⟨"private", 7, "9", none, none, true, some "1|T|A", none, none,
        none⟩).state.waitingForMeta = none ∧
    (handleMessage ⟨1000, true, none, ["9"], fun _ => true, true⟩ ⟨[], [], [], []⟩
        ⟨"private", 7, "9", none, none, true, some "bb", none, none, none⟩ =
      handleCommandOrText ⟨1000, true, none, ["9"], fun _ => true, true⟩
        ⟨[], aset "9" 1000 [], [], []⟩
        ⟨"private", 7, "9", none, none, true, some "bb", none, none, none⟩ "bb" ∧
      (startsWithSlash "bb" = false →
        handleMessage ⟨1000, true, none, ["9"], fun _ => true, true⟩ ⟨[], [], [], []⟩
            ⟨"private", 7, "9", none, none, true, some "bb", none, none, none⟩ =
          handleText ⟨1000, true, none, ["9"], fun _ => true, true⟩
            ⟨[], aset "9" 1000 [], [], []⟩
            ⟨"private", 7, "9", none, none, true, some "bb", none, none, none⟩ "bb")) :=
  ⟨claim_C3.1 ⟨1000, true, none, ["9"], fun _ => true, true⟩ ⟨[], [], [], []⟩
      ⟨"private", 7, "9", some ⟨"F", "application/pdf"⟩, none, false, none, none, none, none⟩
      ⟨"F", "application/pdf"⟩ rfl (by decide) rfl (by decide) (by decide) (by decide),
   claim_C3.2.1 ⟨1000, true, none, ["9"], fun _ => true, true⟩ ⟨[], [], [], []⟩
      ⟨"private", 7, "9", some ⟨"F", "application/pdf"⟩, none, false, none, none, none, none⟩
      (fun k => by simp [countKeys]),
   claim_C3.2.2.1 ⟨1000, true, none, ["9"], fun _ => true, true⟩
      ⟨[], [], [(7, ⟨"F", "application/pdf"⟩)], []⟩
      ⟨"private", 7, "9", none, none, true, some "1|T|A", none, none, none⟩
      "1|T|A" ⟨"F", "application/pdf"⟩ rfl (by decide) rfl rfl (by decide) (by decide)
      (by decide) (by decide) (by decide) rfl,
   claim_C3.2.2.2 ⟨1000, true, none, ["9"], fun _ => true, true⟩ ⟨[], [], [], []⟩
      ⟨"private", 7, "9", none, none, true, some "bb", none, none, none⟩ "bb"
      rfl (by decide) rfl rfl (by decide) (by decide)⟩

/-! ### Claim C4 -/

/-- C4: duplicate detection by exact file-id equality happens only on the
caption-based direct intake path — there a pre-existing record with the same
file id rejects the upload, surfaces the existing title and appends nothing —
while the metadata-reply path performs no duplicate check and appends the row
even when a record with the same file id is already in the generation. -/
theorem claim_C4 :
    (∀ (env : Env) (st : BotState) (msg : TMessage) (doc : TDocument) (ex : BookRecord),
        msg.chatType = "private" →
        ¬ env.now - (alookup msg.fromId st.lastRequestAt).getD 0 < RATE_WINDOW_MS →
        msg.document = some doc →
        isAdmin env.adminIds msg.fromId = true →
        isValidDocumentType doc.mime_type = true →
        safeText (msg.caption.getD "") ≠ "" →
        (parseParts (safeText (msg.caption.getD ""))).getD 1 "" ≠ "" →
        safeFileId doc.file_id ≠ "" →
        findByFileId st.books (safeFileId doc.file_id) = some ex →
        handleMessage env st msg =
          ⟨{ st with lastRequestAt := aset msg.fromId env.now st.lastRequestAt },
            [], [], Reply.duplicateDocument ex.title⟩) ∧
    (∀ (env : Env) (st : BotState) (msg : TMessage) (t : String) (sess : Session)
        (ex : BookRecord),
        msg.chatType = "private" →
        ¬ env.now - (alookup msg.fromId st.lastRequestAt).getD 0 < RATE_WINDOW_MS →
        msg.document = none →
        msg.text = some t → t ≠ "" →
        alookup msg.chatId st.waitingForMeta = some sess →
        (msg.replyTo && isAdmin env.adminIds msg.fromId) = true →
        (parseParts (safeText t)).getD 1 "" ≠ "" →
        sess.file_id ≠ "" →
        env.appendOk = true →
        findByFileId st.books sess.file_id = some ex →
        (handleMessage env st msg).appendedRows =
          [appendRowValues ((parseParts (safeText t)).getD 0 "")
            ((parseParts (safeText t)).getD 1 "")
            ((parseParts (safeText t)).getD 2 "") sess.file_id]) := by
  constructor
  · intro env st msg doc ex hpriv hrate hdoc hadm hmime hcap htitle hfid hdup
    rw [handleMessage_doc env st msg doc hpriv hrate hdoc hadm]
    exact handleAdminDocument_dup env _ msg doc ex hmime hcap htitle hfid hdup
  · intro env st msg t sess ex hpriv hrate hdoc ht hne hsess hcond htitle hfid happ hdup
    rw [handleMessage_nodoc env st msg hpriv hrate hdoc,
      handleRest_meta env
        { st with lastRequestAt := aset msg.fromId env.now st.lastRequestAt }
        msg t sess ht hne hsess hcond]
    exact (handleMetaReply_success env
      { st with lastRequestAt := aset msg.fromId env.now st.lastRequestAt }
      msg.chatId sess t htitle hfid happ).2.1

/-- Concrete witness for C4: the same file id "F" is already catalogued as
"T"; a captioned re-upload is rejected with the existing title, while a
metadata reply holding that file id still appends a second row. -/
theorem claim_C4_witness :
    handleMessage ⟨1000, true, none, ["9"], fun _ => true, true⟩
        ⟨[⟨"1", "T", "A", "F"⟩], [], [], []⟩
        ⟨"private", 7, "9", some ⟨"F", "application/pdf"⟩, some "2|U|B", false, none,
          none, none, none⟩ =
      ⟨⟨[⟨"1", "T", "A", "F"⟩], aset "9" 1000 [], [], []⟩, [], [],
        Reply.duplicateDocument (BookRecord.mk "1" "T" "A" "F").title⟩ ∧
    (handleMessage ⟨1000, true, none, ["9"], fun _ => true, true⟩
        ⟨[⟨"1", "T", "A", "F"⟩], [], [(7, ⟨"F", "application/pdf"⟩)], []⟩
        ⟨"private", 7, "9", none, none, true, some "2|U|B", none, none,
          none⟩).appendedRows =
      [appendRowValues ((parseParts (safeText "2|U|B")).getD 0 "")
        ((parseParts (safeText "2|U|B")).getD 1 "")
        ((parseParts (safeText "2|U|B")).getD 2 "")
        (Session.mk "F" "application/pdf").file_id] :=
  ⟨claim_C4.1 ⟨1000, true, none, ["9"], fun _ => true, true⟩
      ⟨[⟨"1", "T", "A", "F"⟩], [], [], []⟩
      ⟨"private", 7, "9", some ⟨"F", "application/pdf"⟩, some "2|U|B", false, none,
        none, none, none⟩
      ⟨"F", "application/pdf"⟩ ⟨"1", "T", "A", "F"⟩
      rfl (by decide) rfl (by decide) (by decide) (by decide) (by decide) (by decide)
      (by decide),
   claim_C4.2 ⟨1000, true, none, ["9"], fun _ => true, true⟩
      ⟨[⟨"1", "T", "A", "F"⟩], [], [(7, ⟨"F", "application/pdf"⟩)], []⟩
      ⟨"private", 7, "9", none, none, true, some "2|U|B", none, none, none⟩
      "2|U|B" ⟨"F", "application/pdf"⟩ ⟨"1", "T", "A", "F"⟩
      rfl (by decide) rfl rfl (by decide) (by decide) (by decide) (by decide)
      (by decide) rfl (by decide)⟩

/-! ### Claim C7 -/

/-- C7: caption and metadata parsing splits on the pipe and trims each
segment; the three concrete captions of the claim parse as stated; any input
whose title segment is empty is rejected — on the caption path with the
format-error message and on the metadata path with the invalid-metadata
message — leaving the session map untouched and appending nothing; extra
segments beyond the third are ignored by the append. -/
theorem claim_C7 :
    parseParts "007|Great Book|Jane Doe" = ["007", "Great Book", "Jane Doe"] ∧
    parseParts "|Great Book|" = ["", "Great Book", ""] ∧
    parseParts "007||Jane Doe" = ["007", "", "Jane Doe"] ∧
    (parseParts "007").getD 1 "" = "" ∧
    (∀ (env : Env) (st : BotState) (msg : TMessage) (doc : TDocument),
        msg.chatType = "private" →
        ¬ env.now - (alookup msg.fromId st.lastRequestAt).getD 0 < RATE_WINDOW_MS →
        msg.document = some doc →
        isAdmin env.adminIds msg.fromId = true →
        isValidDocumentType doc.mime_type = true →
        safeText (msg.caption.getD "") ≠ "" →
        (parseParts (safeText (msg.caption.getD ""))).getD 1 "" = "" →
        handleMessage env st msg =
          ⟨{ st with lastRequestAt := aset msg.fromId env.now st.lastRequestAt },
            [], [], Reply.captionFormatError⟩) ∧
    (∀ (env : Env) (st : BotState) (msg : TMessage) (t : String) (sess : Session),
        msg.chatType = "private" →
        ¬ env.now - (alookup msg.fromId st.lastRequestAt).getD 0 < RATE_WINDOW_MS →
        msg.document = none →
        msg.text = some t → t ≠ "" →
        alookup msg.chatId st.waitingForMeta = some sess →
        (msg.replyTo && isAdmin env.adminIds msg.fromId) = true →
        (parseParts (safeText t)).getD 1 "" = "" →
        handleMessage env st msg =
          ⟨{ st with lastRequestAt := aset msg.fromId env.now st.lastRequestAt },
            [], [], Reply.invalidMetadata⟩) ∧
    ((handleMessage ⟨1000, true, some [], ["9"], fun _ => true, true⟩ ⟨[], [], [], []⟩
        ⟨"private", 7, "9", some ⟨"F", "application/pdf"⟩, some "|Great Book|", false,
          none, none, none, none⟩).appendedRows = [["", "Great Book", "", "F"]] ∧
      (handleMessage ⟨1000, true, some [], ["9"], fun _ => true, true⟩ ⟨[], [], [], []⟩
        ⟨"private", 7, "9", some ⟨"F", "application/pdf"⟩, some "|Great Book|", false,
          none, none, none, none⟩).reply = Reply.savedCaption "Great Book") ∧
    (handleMessage ⟨1000, true, some [], ["9"], fun _ => true, true⟩ ⟨[], [], [], []⟩
        ⟨"private", 7, "9", some ⟨"F", "application/pdf"⟩, some "1|T|A|x|y", false,
          none, none, none, none⟩).appendedRows = [["1", "T", "A", "F"]] := by
  refine ⟨by decide, by decide, by decide, by decide, ?_, ?_, by decide, by decide⟩
  · intro env st msg doc hpriv hrate hdoc hadm hmime hcap htitle
    rw [handleMessage_doc env st msg doc hpriv hrate hdoc hadm]
    exact handleAdminDocument_badTitle env _ msg doc hmime hcap htitle
  · intro env st msg t sess hpriv hrate hdoc ht hne hsess hcond htitle
    rw [handleMessage_nodoc env st msg hpriv hrate hdoc,
      handleRest_meta env
        { st with lastRequestAt := aset msg.fromId env.now st.lastRequestAt }
        msg t sess ht hne hsess hcond]
    exact handleMetaReply_invalid env _ msg.chatId sess t htitle

/-- Concrete witness for C7: the caption "007||Jane Doe" is rejected on both
intake paths with no append and no session change. -/
theorem claim_C7_witness :
    handleMessage ⟨1000, true, none, ["9"], fun _ => true, true⟩ ⟨[], [], [], []⟩
        ⟨"private", 7, "9", some ⟨"F", "application/pdf"⟩, some "007||Jane Doe", false,
          none, none, none, none⟩ =
      ⟨⟨[], aset "9" 1000 [], [], []⟩, [], [], Reply.captionFormatError⟩ ∧
    handleMessage ⟨1000, true, none, ["9"], fun _ => true, true⟩
        ⟨[], [], [(7, ⟨"F", "application/pdf"⟩)], []⟩
        ⟨"private", 7, "9", none, none, true, some "007||Jane Doe", none, none, none⟩ =
      ⟨⟨[], aset "9" 1000 [], [(7, ⟨"F", "application/pdf"⟩)], []⟩, [], [],
        Reply.invalidMetadata⟩ :=
  ⟨(claim_C7.2.2.2.2.1) ⟨1000, true, none, ["9"], fun _ => true, true⟩ ⟨[], [], [], []⟩
      ⟨"private", 7, "9", some ⟨"F", "application/pdf"⟩, some "007||Jane Doe", false,
        none, none, none, none⟩
      ⟨"F", "application/pdf"⟩ rfl (by decide) rfl (by decide) (by decide) (by decide)
      (by decide),
   (claim_C7.2.2.2.2.2.1) ⟨1000, true, none, ["9"], fun _ => true, true⟩
      ⟨[], [], [(7, ⟨"F", "application/pdf"⟩)], []⟩
      ⟨"private", 7, "9", none, none, true, some "007||Jane Doe", none, none, none⟩
      "007||Jane Doe" ⟨"F", "application/pdf"⟩ rfl (by decide) rfl rfl (by decide)
      (by decide) (by decide) (by decide)⟩

/-! ### Claim C9 -/

/-- C9: in the metadata-reply path the session is deleted exactly when the
external append succeeds — in particular, when the append succeeds and the
subsequent reload fails, the session is already gone, the row was appended,
and the administrator still receives the failure message; when the append
itself fails, the whole state except the rate-limiter map is untouched and
the session remains. -/
theorem claim_C9 :
    (∀ (env : Env) (st : BotState) (msg : TMessage) (t : String) (sess : Session),
        msg.chatType = "private" →
        ¬ env.now - (alookup msg.fromId st.lastRequestAt).getD 0 < RATE_WINDOW_MS →
        msg.document = none →
        msg.text = some t → t ≠ "" →
        alookup msg.chatId st.waitingForMeta = some sess →
        (msg.replyTo && isAdmin env.adminIds msg.fromId) = true →
        (parseParts (safeText t)).getD 1 "" ≠ "" →
        sess.file_id ≠ "" →
        env.appendOk = true →
        alookup msg.chatId (handleMessage env st msg).state.waitingForMeta = none ∧
        (handleMessage env st msg).appendedRows =
          [appendRowValues ((parseParts (safeText t)).getD 0 "")
            ((parseParts (safeText t)).getD 1 "")
            ((parseParts (safeText t)).getD 2 "") sess.file_id] ∧
        (env.fetchRows = none →
          (handleMessage env st msg).reply = Reply.metaSaveFailed)) ∧
    (∀ (env : Env) (st : BotState) (msg : TMessage) (t : String) (sess : Session),
        msg.chatType = "private" →
        ¬ env.now - (alookup msg.fromId st.lastRequestAt).getD 0 < RATE_WINDOW_MS →
        msg.document = none →
        msg.text = some t → t ≠ "" →
        alookup msg.chatId st.waitingForMeta = some sess →
        (msg.replyTo && isAdmin env.adminIds msg.fromId) = true →
        (parseParts (safeText t)).getD 1 "" ≠ "" →
        sess.file_id ≠ "" →
        env.appendOk = false →
        handleMessage env st msg =
          ⟨{ st with lastRequestAt := aset msg.fromId env.now st.lastRequestAt },
            [], [], Reply.metaSaveFailed⟩) := by
  constructor
  · intro env st msg t sess hpriv hrate hdoc ht hne hsess hcond htitle hfid happ
    rw [handleMessage_nodoc env st msg hpriv hrate hdoc,
      handleRest_meta env
        { st with lastRequestAt := aset msg.fromId env.now st.lastRequestAt }
        msg t sess ht hne hsess hcond]
    refine ⟨?_,
      (handleMetaReply_success env
        { st with lastRequestAt := aset msg.fromId env.now st.lastRequestAt }
        msg.chatId sess t htitle hfid happ).2.1,
      (handleMetaReply_success env
        { st with lastRequestAt := aset msg.fromId env.now st.lastRequestAt }
        msg.chatId sess t htitle hfid happ).2.2⟩
    rw [(handleMetaReply_success env
      { st with lastRequestAt := aset msg.fromId env.now st.lastRequestAt }
      msg.chatId sess t htitle hfid happ).1]
    exact alookup_adel_self msg.chatId _
  · intro env st msg t sess hpriv hrate hdoc ht hne hsess hcond htitle hfid happ
    rw [handleMessage_nodoc env st msg hpriv hrate hdoc,
      handleRest_meta env
        { st with lastRequestAt := aset msg.fromId env.now st.lastRequestAt }
        msg t sess ht hne hsess hcond]
    exact handleMetaReply_appendFail env _ msg.chatId sess t htitle hfid happ

/-- Concrete witness for C9: append succeeds while the reload fails — the
session is gone, the row is on the sheet and the failure message is sent;
with a failing append the session survives. -/
theorem claim_C9_witness :
    (alookup 7 (handleMessage ⟨1000, true, none, ["9"], fun _ => true, true⟩
        ⟨[], [], [(7, ⟨"F", "application/pdf"⟩)], []⟩
        ⟨"private", 7, "9", none, none, true, some "1|T|A", none, none,
          none⟩).state.waitingForMeta = none ∧
      (handleMessage ⟨1000, true, none, ["9"], fun _ => true, true⟩
        ⟨[], [], [(7, ⟨"F", "application/pdf"⟩)], []⟩
        ⟨"private", 7, "9", none, none, true, some "1|T|A", none, none,
          none⟩).appendedRows =
        [appendRowValues ((parseParts (safeText "1|T|A")).getD 0 "")
          ((parseParts (safeText "1|T|A")).getD 1 "")
          ((parseParts (safeText "1|T|A")).getD 2 "")
          (Session.mk "F" "application/pdf").file_id] ∧
      ((⟨1000, true, none, ["9"], fun _ => true, true⟩ : Env).fetchRows = none →
        (handleMessage ⟨1000, true, none, ["9"], fun _ => true, true⟩
          ⟨[], [], [(7, ⟨"F", "application/pdf"⟩)], []⟩
          ⟨"private", 7, "9", none, none, true, some "1|T|A", none, none,
            none⟩).reply = Reply.metaSaveFailed)) ∧
    handleMessage ⟨1000, false, none, ["9"], fun _ => true, true⟩
        ⟨[], [], [(7, ⟨"F", "application/pdf"⟩)], []⟩
        ⟨"private", 7, "9", none, none, true, some "1|T|A", none, none, none⟩ =
      ⟨⟨[], aset "9" 1000 [], [(7, ⟨"F", "application/pdf"⟩)], []⟩, [], [],
        Reply.metaSaveFailed⟩ :=
  ⟨claim_C9.1 ⟨1000, true, none, ["9"], fun _ => true, true⟩
      ⟨[], [], [(7, ⟨"F", "application/pdf"⟩)], []⟩
      ⟨"private", 7, "9", none, none, true, some "1|T|A", none, none, none⟩
      "1|T|A" ⟨"F", "application/pdf"⟩ rfl (by decide) rfl rfl (by decide) (by decide)
      (by decide) (by decide) (by decide) rfl,
   claim_C9.2 ⟨1000, false, none, ["9"], fun _ => true, true⟩
      ⟨[], [], [(7, ⟨"F", "application/pdf"⟩)], []⟩
      ⟨"private", 7, "9", none, none, true, some "1|T|A", none, none, none⟩
      "1|T|A" ⟨"F", "application/pdf"⟩ rfl (by decide) rfl rfl (by decide) (by decide)
      (by decide) (by decide) (by decide) rfl⟩

end LibBot
